import Mathlib

/-!
Shallow embedding of `app.py` ("Improved Particle Simulation" variant).

Conventions of the embedding:
* Python floats are modelled as exact rationals (`ℚ`).
* `math.pi` appears only as the factor in `mass = math.pi * radius ** 2`;
  it is carried as an explicit rational parameter `pi` of the particle
  constructor, since the embedding works in exact arithmetic.
* Python `int(x)` truncates toward zero; `pyInt` below does the same on `ℚ`.
* `collections.deque(maxlen=N)` is modelled by `History`: a list whose head
  is the front (oldest) element; `append` adds at the back and discards the
  front element when the deque is full; `pop` removes from the back.
* `pymunk` is external: `space.step(dt)` is an opaque function parameter;
  bodies are records of the attributes the program reads and writes.
* Randomness (`random.randint` / `random.uniform`) is modelled by passing
  the drawn values (`NewParticleData`) as explicit arguments.
-/

namespace Simpy

/-- Python `int()` applied to a rational: truncation toward zero. -/
def pyInt (q : ℚ) : ℤ := if q < 0 then -⌊-q⌋ else ⌊q⌋

/-! ### Constants from the top of `app.py` -/

def NUM_PARTICLES : Nat := 400
def DEFAULT_FRICTION : ℚ := 1/10
def GRAVITY_ACCELERATION : ℚ := 981
def ELASTICITY : ℚ := 1
def INITIAL_TIME_STEP : ℚ := 1/60
def MAX_HISTORY_LENGTH : Nat := 1000

/-! ### History: `deque(maxlen=MAX_HISTORY_LENGTH)` -/

/-- A bounded deque (`collections.deque(maxlen=capacity)`).
`entries` is ordered front (oldest) to back (most recent). -/
structure History (α : Type) where
  capacity : Nat
  entries : List α
  deriving Repr, DecidableEq

/-- A fresh empty deque of the given capacity. -/
def History.empty (α : Type) (cap : Nat) : History α := ⟨cap, []⟩

/-- `deque.append(x)`: add `x` at the back; when the deque already holds
`capacity` items the front (oldest) item is discarded. -/
def History.push {α : Type} (h : History α) (x : α) : History α :=
  ⟨h.capacity, (if h.entries.length = h.capacity then h.entries.tail else h.entries) ++ [x]⟩

/-- `deque.pop()`: remove and return the back (most recent) item; `none`
signals the empty deque (the program guards every call with `len > 0`). -/
def History.pop {α : Type} (h : History α) : Option (α × History α) :=
  match h.entries.getLast? with
  | none => none
  | some x => some (x, ⟨h.capacity, h.entries.dropLast⟩)

/-- Fold a list of pushes over a deque. -/
def History.pushAll {α : Type} (h : History α) (xs : List α) : History α :=
  xs.foldl History.push h

/-- Pop up to `m` times, collecting the returned items in order. -/
def History.popMany {α : Type} (m : Nat) (h : History α) : List α × History α :=
  match m with
  | 0 => ([], h)
  | Nat.succ m' =>
    match h.pop with
    | none => ([], h)
    | some (x, h') =>
      let r := History.popMany m' h'
      (x :: r.1, r.2)

/-! ### Bodies, particles, snapshots -/

/-- The attributes of a `pymunk.Body` the program reads and writes. -/
structure Body where
  mass : ℚ
  moment : ℚ
  position : ℚ × ℚ
  velocity : ℚ × ℚ
  angle : ℚ
  angular_velocity : ℚ
  deriving Repr, DecidableEq

/-- A particle: a body plus its circle shape's attributes. -/
structure Particle where
  radius : ℚ
  body : Body
  elasticity : ℚ
  friction : ℚ
  deriving Repr, DecidableEq

/-- One per-particle record of a history snapshot:
`(b.position, b.velocity, b.angle, b.angular_velocity)`. -/
structure BodyState where
  position : ℚ × ℚ
  velocity : ℚ × ℚ
  angle : ℚ
  angular_velocity : ℚ
  deriving Repr, DecidableEq

/-- The values drawn by `random.randint` / `random.uniform` when a particle
is created, passed explicitly. -/
structure NewParticleData where
  radius : ℚ
  position : ℚ × ℚ
  velocity : ℚ × ℚ
  angular_velocity : ℚ
  deriving Repr, DecidableEq

/-- `pymunk.moment_for_circle(mass, inner_radius, radius)` (offset 0). -/
def moment_for_circle (mass inner_radius radius : ℚ) : ℚ :=
  mass * ((inner_radius ^ 2 + radius ^ 2) / 2)

/-- `Particle.__init__`: mass `π·r²`, disk moment, angle 0 (pymunk default),
elasticity `ELASTICITY`, the given friction.  `pi` stands for `math.pi`. -/
def mkParticle (pi : ℚ) (friction : ℚ) (d : NewParticleData) : Particle :=
  let mass := pi * d.radius ^ 2
  { radius := d.radius
    body :=
      { mass := mass
        moment := moment_for_circle mass 0 d.radius
        position := d.position
        velocity := d.velocity
        angle := 0
        angular_velocity := d.angular_velocity }
    elasticity := ELASTICITY
    friction := friction }

/-- `calculate_kinetic_energy`: translational plus rotational kinetic energy
(`velocity.length ** 2` is `vx² + vy²` in exact arithmetic). -/
def calculate_kinetic_energy (b : Body) : ℚ :=
  1/2 * b.mass * (b.velocity.1 ^ 2 + b.velocity.2 ^ 2)
    + 1/2 * b.moment * b.angular_velocity ^ 2

/-! ### Energy-to-color mapping -/

/-- Clamp one channel: `max(0, min(255, v))`. -/
def clampChannel (v : ℤ) : ℤ := max 0 (min 255 v)

/-- The guarded divisor of `energy_to_color`:
`avg = self.average_energy if self.average_energy > 0 else 1`. -/
def effectiveAvg (average_energy : ℚ) : ℚ :=
  if 0 < average_energy then average_energy else 1

/-- `energy_to_color` of `app.py`: blue-to-white below the average,
white-to-red above, each channel clamped to `[0, 255]`. -/
def energy_to_color (average_energy energy : ℚ) : ℤ × ℤ × ℤ :=
  let avg := effectiveAvg average_energy
  if energy < avg then
    let norm := energy / avg
    (clampChannel (pyInt (255 * norm)),
     clampChannel (pyInt (255 * norm)),
     clampChannel 255)
  else
    let norm := (energy - avg) / avg
    (clampChannel 255,
     clampChannel (pyInt (255 * (1 - norm))),
     clampChannel (pyInt (255 * (1 - norm))))

/-- The above-average green/blue channel exactly as the code computes it,
before clamping: `int(255 * (1 - (energy - avg)/avg))`. -/
def aboveScaleCode (energy avg : ℚ) : ℤ :=
  pyInt (255 * (1 - (energy - avg) / avg))

/-- The above-average green/blue channel under the spec's alternate formula,
before clamping: `int(255 * (2 - normalized))` with `normalized = energy/avg`. -/
def aboveScaleAlt (energy avg : ℚ) : ℤ :=
  pyInt (255 * (2 - energy / avg))

/-! ### Snapshots of the particle list -/

/-- The per-particle record `(b.position, b.velocity, b.angle, b.angular_velocity)`
that `save_state` captures. -/
def bodyStateOf (p : Particle) : BodyState :=
  ⟨p.body.position, p.body.velocity, p.body.angle, p.body.angular_velocity⟩

/-- `save_state`: one `BodyState` per particle, in particle-list order. -/
def save_state (particles : List Particle) : List BodyState :=
  particles.map bodyStateOf

/-- Write one saved record back into a particle's body
(`b.position = pos; b.velocity = vel; b.angle = angle; b.angular_velocity = ang_vel`). -/
def restoreParticle (p : Particle) (s : BodyState) : Particle :=
  { p with body :=
      { p.body with
          position := s.position
          velocity := s.velocity
          angle := s.angle
          angular_velocity := s.angular_velocity } }

/-- `load_state`: `for particle, s in zip(self.particles, state)` — pairs
positionally; particles beyond the shorter list are left untouched, extra
saved records are ignored. -/
def load_state : List Particle → List BodyState → List Particle
  | [], _ => []
  | ps, [] => ps
  | p :: ps, s :: ss => restoreParticle p s :: load_state ps ss

/-! ### Simulation state and events -/

/-- The mutable fields of `Simulation` that the modelled methods touch.
The pygame/pymunk handles (`screen`, `clock`, `space`, …) are external. -/
structure SimState where
  paused : Bool
  friction_enabled : Bool
  gravity_enabled : Bool
  inversion_enabled : Bool
  dt : ℚ
  history : History (List BodyState)
  particles : List Particle
  initial_energies : List ℚ
  average_energy : ℚ
  deriving Repr, DecidableEq

/-- `Simulation.__init__` after `create_particles`: history empty, all
toggles off, `initial_energies` holds each particle's kinetic energy at
creation, `average_energy` their mean (0 when there are no particles).
`pi` stands for `math.pi`; `draws` are the random values of each particle. -/
def mkSimState (pi : ℚ) (draws : List NewParticleData) : SimState :=
  let particles := draws.map (mkParticle pi 0)
  let energies := particles.map (fun p => calculate_kinetic_energy p.body)
  { paused := false
    friction_enabled := false
    gravity_enabled := false
    inversion_enabled := false
    dt := INITIAL_TIME_STEP
    history := History.empty (List BodyState) MAX_HISTORY_LENGTH
    particles := particles
    initial_energies := energies
    average_energy := if energies = [] then 0 else energies.sum / (energies.length : ℚ) }

/-- `K_f` handler: flip the flag, then set every live particle's shape
friction to `DEFAULT_FRICTION if self.friction_enabled else 0`. -/
def toggle_friction (s : SimState) : SimState :=
  let enabled := !s.friction_enabled
  { s with
      friction_enabled := enabled
      particles := s.particles.map
        (fun p => { p with friction := if enabled then DEFAULT_FRICTION else 0 }) }

/-- The `K_EQUALS`/`K_PLUS` and `MOUSEBUTTONDOWN` handlers (identical code):
create a particle with the current friction setting, append it, append its
kinetic energy to `initial_energies`, and recompute `average_energy` as the
mean of `initial_energies`. -/
def add_particle_event (pi : ℚ) (d : NewParticleData) (s : SimState) : SimState :=
  let new_particle := mkParticle pi (if s.friction_enabled then DEFAULT_FRICTION else 0) d
  let energies := s.initial_energies ++ [calculate_kinetic_energy new_particle.body]
  { s with
      particles := s.particles ++ [new_particle]
      initial_energies := energies
      average_energy := energies.sum / (energies.length : ℚ) }

/-- The `K_MINUS` handler: if any particle exists, drop the last one; then
pop `initial_energies` if non-empty; then recompute `average_energy` only
if `initial_energies` is still non-empty. -/
def remove_particle_event (s : SimState) : SimState :=
  if s.particles = [] then s
  else
    let energies :=
      if s.initial_energies = [] then s.initial_energies
      else s.initial_energies.dropLast
    { s with
        particles := s.particles.dropLast
        initial_energies := energies
        average_energy :=
          if energies = [] then s.average_energy
          else energies.sum / (energies.length : ℚ) }

/-- `update`: when not paused, either pop-and-restore the most recent
snapshot (inversion on, guarded by `len(self.history) > 0`), or push the
current state and advance the world by `dt`.  `stepFn` is the external
`space.step` restricted to its effect on the dynamic particles. -/
def update (stepFn : ℚ → List Particle → List Particle) (s : SimState) : SimState :=
  if s.paused then s
  else if s.inversion_enabled then
    match s.history.pop with
    | none => s
    | some (st, h') => { s with history := h', particles := load_state s.particles st }
  else
    { s with
        history := s.history.push (save_state s.particles)
        particles := stepFn s.dt s.particles }

/-! ### History lemmas -/

theorem History.pushAll_cons {α : Type} (h : History α) (x : α) (xs : List α) :
    History.pushAll h (x :: xs) = History.pushAll (h.push x) xs := rfl

theorem History.capacity_pushAll {α : Type} (h : History α) (xs : List α) :
    (History.pushAll h xs).capacity = h.capacity := by
  induction xs generalizing h with
  | nil => rfl
  | cons x rest ih => rw [History.pushAll_cons, ih]; rfl

/-- What a run of pushes leaves in the deque: the last `cap` elements of
`acc ++ xs` (all of them while they still fit). -/
theorem History.entries_pushAll {α : Type} {cap : Nat} (hcap : 0 < cap) (xs : List α) :
    ∀ acc : List α, acc.length ≤ cap →
      (History.pushAll ⟨cap, acc⟩ xs).entries
        = (acc ++ xs).drop (acc.length + xs.length - cap) := by
  induction xs with
  | nil =>
    intro acc hacc
    simp [History.pushAll, Nat.sub_eq_zero_of_le hacc]
  | cons x rest ih =>
    intro acc hacc
    rw [History.pushAll_cons]
    by_cases hfull : acc.length = cap
    · cases acc with
      | nil => exact absurd (hfull.symm.trans_gt hcap) (lt_irrefl 0)
      | cons a acc' =>
        have hpush : History.push ⟨cap, a :: acc'⟩ x = ⟨cap, acc' ++ [x]⟩ := by
          simp [History.push, hfull]
        have hlen : (acc' ++ [x]).length = cap := by
          simp only [List.length_cons] at hfull
          simp [hfull]
        rw [hpush, ih (acc' ++ [x]) (le_of_eq hlen), hlen]
        have h1 : cap + rest.length - cap = rest.length := by omega
        have h2 : (a :: acc').length + (x :: rest).length - cap = rest.length + 1 := by
          simp only [List.length_cons] at hfull ⊢
          omega
        rw [h1, h2, List.cons_append, List.drop_succ_cons, List.append_assoc,
          List.singleton_append]
    · have hpush : History.push ⟨cap, acc⟩ x = ⟨cap, acc ++ [x]⟩ := by
        simp [History.push, hfull]
      have hlen : (acc ++ [x]).length ≤ cap := by
        have hlt : acc.length < cap := lt_of_le_of_ne hacc hfull
        simp only [List.length_append, List.length_cons, List.length_nil]
        omega
      rw [hpush, ih (acc ++ [x]) hlen]
      have h2 : (acc ++ [x]).length + rest.length = acc.length + (x :: rest).length := by
        simp only [List.length_append, List.length_cons, List.length_nil]
        omega
      rw [h2, List.append_assoc, List.singleton_append]

theorem History.pop_eq_none_iff {α : Type} (h : History α) :
    h.pop = none ↔ h.entries = [] := by
  unfold History.pop
  cases hl : h.entries.getLast? with
  | none => simpa using List.getLast?_eq_none_iff.mp hl
  | some x =>
    simp only [reduceCtorEq, false_iff]
    rcases List.getLast?_eq_some_iff.mp hl with ⟨ys, hys⟩
    simp [hys]

theorem History.pop_spec {α : Type} {h : History α} {x : α} {h' : History α}
    (hp : h.pop = some (x, h')) :
    x ∈ h.entries ∧ h'.entries = h.entries.dropLast ∧ h'.capacity = h.capacity := by
  unfold History.pop at hp
  cases hl : h.entries.getLast? with
  | none => rw [hl] at hp; exact absurd hp (by simp)
  | some y =>
    rw [hl] at hp
    simp only [Option.some.injEq, Prod.mk.injEq] at hp
    obtain ⟨rfl, rfl⟩ := hp
    refine ⟨?_, rfl, rfl⟩
    rcases List.getLast?_eq_some_iff.mp hl with ⟨ys, hys⟩
    simp [hys]

theorem History.empty_eq (α : Type) (cap : Nat) :
    History.empty α cap = ⟨cap, []⟩ := rfl

/-- Any sequence of pops only ever returns values present in the deque. -/
theorem History.popMany_subset {α : Type} :
    ∀ (m : Nat) (h : History α), (History.popMany m h).1 ⊆ h.entries
  | 0, _ => by simp [History.popMany]
  | Nat.succ m', h => by
    unfold History.popMany
    cases hp : h.pop with
    | none => simp
    | some r =>
      obtain ⟨x, h'⟩ := r
      obtain ⟨hmem, hent, -⟩ := History.pop_spec hp
      show (x :: (History.popMany m' h').1) ⊆ h.entries
      intro y hy
      rcases List.mem_cons.mp hy with rfl | hy'
      · exact hmem
      · exact (List.dropLast_sublist h.entries).subset
          (hent ▸ History.popMany_subset m' h' hy')

end Simpy

namespace Simpy

example : energy_to_color 1 0 = (0, 0, 255) := by
  norm_num [energy_to_color, effectiveAvg, pyInt, clampChannel]
example : energy_to_color 1 1 = (255, 255, 255) := by
  norm_num [energy_to_color, effectiveAvg, pyInt, clampChannel]
example : energy_to_color 1 2 = (255, 0, 0) := by
  norm_num [energy_to_color, effectiveAvg, pyInt, clampChannel]
example : energy_to_color 2 1 = (127, 127, 255) := by
  norm_num [energy_to_color, effectiveAvg, pyInt, clampChannel]
example : energy_to_color 0 5 = (255, 0, 0) := by
  norm_num [energy_to_color, effectiveAvg, pyInt, clampChannel]
example : aboveScaleCode 5 2 = aboveScaleAlt 5 2 := by
  norm_num [aboveScaleCode, aboveScaleAlt, pyInt]
example : aboveScaleCode 5 2 = -127 := by
  norm_num [aboveScaleCode, pyInt]

end Simpy

namespace Simpy

/-! ### Claim C5 -/

/-- Claim C5: `pop` removes and returns the most recently pushed snapshot.
Pushing a single snapshot onto an empty buffer and popping returns that
snapshot and leaves the buffer empty; for a capacity-3 buffer, pushing
`a, b, c, d` and popping repeatedly yields `d` (leaving `[b, c]`), then
`c`, then `b`, after which the buffer is empty and a further pop signals
"empty" (`none`). -/
theorem claim_C5_pop_lifo {α : Type} (cap : Nat) (x a b c d : α) :
    (History.push (History.empty α cap) x).pop = some (x, History.empty α cap)
    ∧ (∃ h1 h2 h3 : History α,
        (History.pushAll (History.empty α 3) [a, b, c, d]).pop = some (d, h1)
        ∧ h1.entries = [b, c]
        ∧ h1.pop = some (c, h2) ∧ h2.entries = [b]
        ∧ h2.pop = some (b, h3) ∧ h3.entries = []
        ∧ h3.pop = none) := by
  constructor
  · have hpush : History.push (History.empty α cap) x = ⟨cap, [x]⟩ := by
      unfold History.push History.empty
      congr 1
      split <;> rfl
    rw [hpush]
    rfl
  · exact ⟨⟨3, [b, c]⟩, ⟨3, [b]⟩, ⟨3, []⟩, rfl, rfl, rfl, rfl, rfl, rfl, rfl⟩

/-! ### Claim C3 -/

/-- Claim C3: the history buffer never holds more than its configured
capacity (`MAX_HISTORY_LENGTH = 1000` in this variant); after
`capacity + k` pushes onto an initially empty buffer it holds exactly the
most recent `capacity` snapshots (the oldest `k` evicted from the front),
and no sequence of later pops — even after further pushes — can return
one of the evicted `k` values: everything poppable lies in the retained
suffix plus whatever was pushed later. -/
theorem claim_C3_capacity_bound {α : Type} (k : Nat) (xs : List α)
    (hlen : xs.length = MAX_HISTORY_LENGTH + k) :
    MAX_HISTORY_LENGTH = 1000
    ∧ (History.pushAll (History.empty α MAX_HISTORY_LENGTH) xs).entries = xs.drop k
    ∧ (History.pushAll (History.empty α MAX_HISTORY_LENGTH) xs).entries.length
        = MAX_HISTORY_LENGTH
    ∧ (∀ ys : List α,
        (History.pushAll (History.empty α MAX_HISTORY_LENGTH) ys).entries.length
          ≤ MAX_HISTORY_LENGTH)
    ∧ (∀ (zs : List α) (m : Nat),
        (History.popMany m
            (History.pushAll (History.pushAll (History.empty α MAX_HISTORY_LENGTH) xs) zs)).1
          ⊆ xs.drop k ++ zs) := by
  have hcap : 0 < MAX_HISTORY_LENGTH := by norm_num [MAX_HISTORY_LENGTH]
  have hbase : ∀ ys : List α,
      (History.pushAll (History.empty α MAX_HISTORY_LENGTH) ys).entries
        = ys.drop (ys.length - MAX_HISTORY_LENGTH) := by
    intro ys
    rw [History.empty_eq]
    have := History.entries_pushAll hcap ys ([] : List α) (by simp)
    simpa using this
  have hmain : (History.pushAll (History.empty α MAX_HISTORY_LENGTH) xs).entries
      = xs.drop k := by
    have hk : xs.length - MAX_HISTORY_LENGTH = k := by omega
    rw [hbase xs, hk]
  refine ⟨rfl, hmain, ?_, ?_, ?_⟩
  · rw [hmain, List.length_drop, hlen]
    omega
  · intro ys
    rw [hbase ys, List.length_drop]
    omega
  · intro zs m
    set h := History.pushAll (History.empty α MAX_HISTORY_LENGTH) xs with hh
    have hcap' : h.capacity = MAX_HISTORY_LENGTH := by
      rw [hh, History.capacity_pushAll, History.empty_eq]
    have hsub : (History.pushAll h zs).entries ⊆ xs.drop k ++ zs := by
      have heta : h = ⟨h.capacity, h.entries⟩ := rfl
      have := @History.entries_pushAll α h.capacity (hcap' ▸ hcap) zs h.entries
        (by rw [hmain, List.length_drop, hlen, hcap']; omega)
      rw [← heta] at this
      rw [this, hmain]
      exact List.drop_subset _ _
    exact fun y hy => hsub (History.popMany_subset m _ hy)

end Simpy

namespace Simpy

/-! ### Color-mapper lemmas -/

theorem clampChannel_bounds (v : ℤ) :
    0 ≤ clampChannel v ∧ clampChannel v ≤ 255 :=
  ⟨le_max_left 0 _, max_le (by norm_num) (min_le_left _ _)⟩

theorem clampChannel_of_nonpos {v : ℤ} (hv : v ≤ 0) : clampChannel v = 0 := by
  unfold clampChannel
  rw [min_eq_right (le_trans hv (by norm_num)), max_eq_left hv]

theorem pyInt_nonpos {q : ℚ} (hq : q ≤ 0) : pyInt q ≤ 0 := by
  unfold pyInt
  split
  · have : (0:ℤ) ≤ ⌊-q⌋ := Int.floor_nonneg.mpr (by linarith)
    omega
  · exact Int.floor_nonpos hq

theorem pyInt_255 : pyInt 255 = 255 := by
  norm_num [pyInt]

theorem clampChannel_255 : clampChannel 255 = 255 := by decide

theorem clampChannel_pyInt_255 : clampChannel (pyInt 255) = 255 := by
  rw [pyInt_255]; exact clampChannel_255

/-- In every branch the result is a triple of clamped channels. -/
theorem energy_to_color_eq_clamp (average_energy energy : ℚ) :
    ∃ r g bl : ℤ,
      energy_to_color average_energy energy
        = (clampChannel r, clampChannel g, clampChannel bl) := by
  unfold energy_to_color
  by_cases hc : energy < effectiveAvg average_energy
  · exact ⟨_, _, _, if_pos hc⟩
  · exact ⟨_, _, _, if_neg hc⟩

/-- The two above-average formulas agree in exact arithmetic whenever the
average is non-zero. -/
theorem aboveScale_eq (energy avg : ℚ) (ha : avg ≠ 0) :
    aboveScaleCode energy avg = aboveScaleAlt energy avg := by
  unfold aboveScaleCode aboveScaleAlt
  congr 1
  field_simp
  ring

/-! ### Claim C1 -/

/-- Claim C1 is false: there are no `energy` and `avg > 0` with normalized
`energy/avg > 2` at which `int(255·(1 − (energy−avg)/avg))` and
`int(255·(2 − energy/avg))` differ — in exact arithmetic the two
expressions are identical. -/
theorem claim_C1_counterexample :
    ¬ ∃ energy avg : ℚ, 0 < avg ∧ 2 < energy / avg
        ∧ aboveScaleCode energy avg ≠ aboveScaleAlt energy avg := by
  rintro ⟨e, a, ha, -, hne⟩
  exact hne (aboveScale_eq e a (ne_of_gt ha))

/-- Claim C1 (amended): the above-average scaling `(1 − (energy−avg)/avg)`
used by this variant is arithmetically the same as `(2 − normalized)` with
`normalized = energy/avg`: for every energy and every average > 0 the two
formulas yield equal channel values before clamping. -/
theorem claim_C1_formulas_agree (energy avg : ℚ) (ha : 0 < avg) :
    aboveScaleCode energy avg = aboveScaleAlt energy avg :=
  aboveScale_eq energy avg (ne_of_gt ha)

theorem claim_C1_formulas_agree_witness :
    (0:ℚ) < 2 ∧ aboveScaleCode 5 2 = aboveScaleAlt 5 2 :=
  ⟨by norm_num, claim_C1_formulas_agree 5 2 (by norm_num)⟩

/-! ### Claim C7 -/

/-- Claim C7: for every energy ≥ 0 and every average > 0, each of the three
channels returned by the color mapper lies in `[0, 255]`. -/
theorem claim_C7_channels_in_range (average_energy energy : ℚ)
    (he : 0 ≤ energy) (ha : 0 < average_energy) :
    0 ≤ (energy_to_color average_energy energy).1
    ∧ (energy_to_color average_energy energy).1 ≤ 255
    ∧ 0 ≤ (energy_to_color average_energy energy).2.1
    ∧ (energy_to_color average_energy energy).2.1 ≤ 255
    ∧ 0 ≤ (energy_to_color average_energy energy).2.2
    ∧ (energy_to_color average_energy energy).2.2 ≤ 255 := by
  obtain ⟨r, g, bl, hcol⟩ := energy_to_color_eq_clamp average_energy energy
  rw [hcol]
  exact ⟨(clampChannel_bounds r).1, (clampChannel_bounds r).2,
    (clampChannel_bounds g).1, (clampChannel_bounds g).2,
    (clampChannel_bounds bl).1, (clampChannel_bounds bl).2⟩

theorem claim_C7_channels_in_range_witness :
    (0:ℚ) ≤ 3 ∧ (0:ℚ) < 2
    ∧ (0 ≤ (energy_to_color 2 3).1 ∧ (energy_to_color 2 3).1 ≤ 255
       ∧ 0 ≤ (energy_to_color 2 3).2.1 ∧ (energy_to_color 2 3).2.1 ≤ 255
       ∧ 0 ≤ (energy_to_color 2 3).2.2 ∧ (energy_to_color 2 3).2.2 ≤ 255) :=
  ⟨by norm_num, by norm_num, claim_C7_channels_in_range 2 3 (by norm_num) (by norm_num)⟩

/-! ### Claim C9 -/

/-- Claim C9: the color mapper is total even when the stored average energy
is 0 or negative — the guard substitutes 1 for the average, so the result
equals the result computed with average 1, and the effective divisor is
always positive (never a division by zero). -/
theorem claim_C9_zero_average_guard (average_energy energy : ℚ)
    (he : 0 ≤ energy) (ha : average_energy ≤ 0) :
    energy_to_color average_energy energy = energy_to_color 1 energy
    ∧ (∀ a : ℚ, 0 < effectiveAvg a) := by
  constructor
  · have h1 : effectiveAvg average_energy = 1 := by
      unfold effectiveAvg
      rw [if_neg (not_lt.mpr ha)]
    have h2 : effectiveAvg 1 = 1 := by
      unfold effectiveAvg
      rw [if_pos one_pos]
    unfold energy_to_color
    rw [h1, h2]
  · intro a
    unfold effectiveAvg
    split
    · assumption
    · norm_num

theorem claim_C9_zero_average_guard_witness :
    (0:ℚ) ≤ 3 ∧ (0:ℚ) ≤ 0
    ∧ (energy_to_color 0 3 = energy_to_color 1 3 ∧ ∀ a : ℚ, 0 < effectiveAvg a) :=
  ⟨by norm_num, le_refl 0, claim_C9_zero_average_guard 0 3 (by norm_num) (le_refl 0)⟩

end Simpy

namespace Simpy

/-! ### Claim C6 -/

/-- Claim C6: for average > 0, energy equal to the average maps to exactly
`(255,255,255)`, energy 0 maps to `(0,0,255)`, and every energy at least
twice the average maps to `(255,0,0)`. -/
theorem claim_C6_fixed_points (average_energy : ℚ) (ha : 0 < average_energy) :
    energy_to_color average_energy average_energy = (255, 255, 255)
    ∧ energy_to_color average_energy 0 = (0, 0, 255)
    ∧ ∀ energy : ℚ, 2 * average_energy ≤ energy →
        energy_to_color average_energy energy = (255, 0, 0) := by
  have havg : effectiveAvg average_energy = average_energy := if_pos ha
  refine ⟨?_, ?_, ?_⟩
  · simp only [energy_to_color, havg, lt_irrefl, if_false, sub_self, zero_div,
      sub_zero, mul_one]
    rw [pyInt_255, clampChannel_255]
  · simp only [energy_to_color, havg, if_pos ha, zero_div, mul_zero]
    have h0 : pyInt 0 = 0 := by norm_num [pyInt]
    rw [h0]
    decide
  · intro energy hle
    have hnotlt : ¬ energy < average_energy := by
      push_neg
      linarith
    have hscale : 255 * (1 - (energy - average_energy) / average_energy) ≤ 0 := by
      have h1 : 1 ≤ (energy - average_energy) / average_energy :=
        (le_div_iff₀ ha).mpr (by linarith)
      have h2 : 1 - (energy - average_energy) / average_energy ≤ 0 := by linarith
      exact mul_nonpos_iff.mpr (Or.inl ⟨by norm_num, h2⟩)
    simp only [energy_to_color, havg, if_neg hnotlt]
    rw [clampChannel_255, clampChannel_of_nonpos (pyInt_nonpos hscale)]

theorem claim_C6_fixed_points_witness :
    (0:ℚ) < 3
    ∧ (energy_to_color 3 3 = (255, 255, 255)
       ∧ energy_to_color 3 0 = (0, 0, 255)
       ∧ energy_to_color 3 7 = (255, 0, 0)) := by
  have h := claim_C6_fixed_points 3 (by norm_num)
  exact ⟨by norm_num, h.1, h.2.1, h.2.2 7 (by norm_num)⟩

/-! ### Claim C3 witness -/

theorem claim_C3_capacity_bound_witness :
    (List.range 1001).length = MAX_HISTORY_LENGTH + 1
    ∧ (MAX_HISTORY_LENGTH = 1000
       ∧ (History.pushAll (History.empty Nat MAX_HISTORY_LENGTH)
            (List.range 1001)).entries = (List.range 1001).drop 1
       ∧ (History.pushAll (History.empty Nat MAX_HISTORY_LENGTH)
            (List.range 1001)).entries.length = MAX_HISTORY_LENGTH
       ∧ (∀ ys : List Nat,
            (History.pushAll (History.empty Nat MAX_HISTORY_LENGTH) ys).entries.length
              ≤ MAX_HISTORY_LENGTH)
       ∧ (∀ (zs : List Nat) (m : Nat),
            (History.popMany m
                (History.pushAll
                  (History.pushAll (History.empty Nat MAX_HISTORY_LENGTH) (List.range 1001))
                  zs)).1
              ⊆ (List.range 1001).drop 1 ++ zs)) :=
  ⟨by simp [MAX_HISTORY_LENGTH],
   claim_C3_capacity_bound 1 (List.range 1001) (by simp [MAX_HISTORY_LENGTH])⟩

end Simpy

namespace Simpy

/-! ### update lemmas -/

/-- Restoring a snapshot of matching length and reading the state back
yields exactly that snapshot. -/
theorem save_load_state (particles : List Particle) (snap : List BodyState)
    (hlen : snap.length = particles.length) :
    save_state (load_state particles snap) = snap := by
  induction particles generalizing snap with
  | nil =>
    cases snap with
    | nil => rfl
    | cons s ss => simp at hlen
  | cons p ps ih =>
    cases snap with
    | nil => simp at hlen
    | cons s ss =>
      simp only [List.length_cons] at hlen
      show bodyStateOf (restoreParticle p s) :: save_state (load_state ps ss) = s :: ss
      rw [ih ss (by omega)]
      rfl

/-! ### Claim C4 -/

/-- Claim C4: on a frame update while not paused — with inversion disabled,
a snapshot recording every particle's current position, velocity, angle and
angular velocity is pushed onto the history and the world is advanced by
`dt`; with inversion enabled and a non-empty history, the most recently
pushed snapshot is popped and restored to the live particles, and the world
is not advanced (the result does not depend on the step function). -/
theorem claim_C4_update_behavior
    (stepFn : ℚ → List Particle → List Particle) (s : SimState)
    (hrun : s.paused = false) :
    (s.inversion_enabled = false →
      update stepFn s
        = { s with history := s.history.push (save_state s.particles),
                   particles := stepFn s.dt s.particles })
    ∧ ((save_state s.particles).length = s.particles.length
       ∧ (save_state s.particles).map BodyState.position
           = s.particles.map (fun p => p.body.position)
       ∧ (save_state s.particles).map BodyState.velocity
           = s.particles.map (fun p => p.body.velocity)
       ∧ (save_state s.particles).map BodyState.angle
           = s.particles.map (fun p => p.body.angle)
       ∧ (save_state s.particles).map BodyState.angular_velocity
           = s.particles.map (fun p => p.body.angular_velocity))
    ∧ (s.inversion_enabled = true → s.history.entries ≠ [] →
        ∃ snap : List BodyState,
          s.history.entries.getLast? = some snap
          ∧ update stepFn s
              = { s with history := ⟨s.history.capacity, s.history.entries.dropLast⟩,
                         particles := load_state s.particles snap }
          ∧ (∀ stepFn' : ℚ → List Particle → List Particle,
              update stepFn' s = update stepFn s)
          ∧ (snap.length = s.particles.length →
              save_state (update stepFn s).particles = snap)) := by
  refine ⟨?_, ?_, ?_⟩
  · intro hinv
    simp [update, hrun, hinv]
  · refine ⟨by simp [save_state], ?_, ?_, ?_, ?_⟩ <;>
      simp [save_state, bodyStateOf]
  · intro hinv hne
    obtain ⟨x, hx⟩ : ∃ x, s.history.entries.getLast? = some x := by
      cases hl : s.history.entries.getLast? with
      | none => exact absurd (List.getLast?_eq_none_iff.mp hl) hne
      | some y => exact ⟨y, rfl⟩
    have hpop : s.history.pop
        = some (x, ⟨s.history.capacity, s.history.entries.dropLast⟩) := by
      unfold History.pop
      rw [hx]
    have hupd : ∀ f : ℚ → List Particle → List Particle,
        update f s
          = { s with history := ⟨s.history.capacity, s.history.entries.dropLast⟩,
                     particles := load_state s.particles x } := by
      intro f
      simp [update, hrun, hinv, hpop]
    refine ⟨x, hx, hupd stepFn, fun f => (hupd f).trans (hupd stepFn).symm, ?_⟩
    intro hsnap
    rw [hupd stepFn]
    exact save_load_state s.particles x hsnap

/-! ### Claim C8 -/

/-- Claim C8: with inversion enabled, the simulation not paused, and an
empty history buffer, a frame update is a no-op: nothing is popped, the
world is not stepped, and the whole state (every particle's position,
velocity, angle and angular velocity included) is unchanged. -/
theorem claim_C8_empty_history_noop
    (stepFn : ℚ → List Particle → List Particle) (s : SimState)
    (hrun : s.paused = false) (hinv : s.inversion_enabled = true)
    (hempty : s.history.entries = []) :
    update stepFn s = s := by
  have hpop : s.history.pop = none := (History.pop_eq_none_iff s.history).mpr hempty
  simp [update, hrun, hinv, hpop]

theorem claim_C8_empty_history_noop_witness :
    update (fun _ ps => ps)
        { paused := false, friction_enabled := false, gravity_enabled := false,
          inversion_enabled := true, dt := INITIAL_TIME_STEP,
          history := History.empty (List BodyState) MAX_HISTORY_LENGTH,
          particles := [], initial_energies := [], average_energy := 0 }
      = { paused := false, friction_enabled := false, gravity_enabled := false,
          inversion_enabled := true, dt := INITIAL_TIME_STEP,
          history := History.empty (List BodyState) MAX_HISTORY_LENGTH,
          particles := [], initial_energies := [], average_energy := 0 } :=
  claim_C8_empty_history_noop _ _ rfl rfl rfl

end Simpy

namespace Simpy

/-! ### Claim C10 -/

/-- Claim C10: after toggling friction, every currently live particle's
shape friction equals `DEFAULT_FRICTION = 0.1` when friction is enabled
and `0` when disabled; and every particle created afterwards (by keypress
or mouse click, both of which run `add_particle_event`) is created with
that same friction — no reset needed. -/
theorem claim_C10_friction_toggle (s : SimState) :
    (toggle_friction s).friction_enabled = !s.friction_enabled
    ∧ DEFAULT_FRICTION = 1/10
    ∧ (∀ p ∈ (toggle_friction s).particles,
        p.friction
          = if (toggle_friction s).friction_enabled then DEFAULT_FRICTION else 0)
    ∧ (∀ (pi : ℚ) (d : NewParticleData) (s' : SimState),
        (add_particle_event pi d s').particles.getLast?
          = some (mkParticle pi
              (if s'.friction_enabled then DEFAULT_FRICTION else 0) d))
    ∧ (∀ (pi f : ℚ) (d : NewParticleData), (mkParticle pi f d).friction = f) := by
  refine ⟨rfl, rfl, ?_, ?_, fun _ _ _ => rfl⟩
  · intro p hp
    simp only [toggle_friction, List.mem_map] at hp
    obtain ⟨q, -, rfl⟩ := hp
    rfl
  · intro pi d s'
    simp only [add_particle_event]
    exact List.getLast?_concat _

/-- A concrete random draw, shared by several concrete instantiations:
radius 1, spawned at (100, 100), at rest. -/
def sampleDraw : NewParticleData := ⟨1, (100, 100), (0, 0), 0⟩

theorem claim_C10_friction_toggle_witness :
    ({ mkParticle 3 0 sampleDraw with friction := DEFAULT_FRICTION } : Particle)
        ∈ (toggle_friction (mkSimState 3 [sampleDraw])).particles
    ∧ ({ mkParticle 3 0 sampleDraw with friction := DEFAULT_FRICTION } : Particle).friction
        = (if (toggle_friction (mkSimState 3 [sampleDraw])).friction_enabled
            then DEFAULT_FRICTION else 0) := by
  have hm : ({ mkParticle 3 0 sampleDraw with friction := DEFAULT_FRICTION } : Particle)
      ∈ (toggle_friction (mkSimState 3 [sampleDraw])).particles := by
    simp [toggle_friction, mkSimState]
  exact ⟨hm, (claim_C10_friction_toggle (mkSimState 3 [sampleDraw])).2.2.1 _ hm⟩

end Simpy

namespace Simpy

/-! ### Claim C4 witness -/

/-- A concrete no-particle state running forward (inversion off). -/
def sampleForward : SimState :=
  { paused := false, friction_enabled := false, gravity_enabled := false,
    inversion_enabled := false, dt := INITIAL_TIME_STEP,
    history := History.empty (List BodyState) MAX_HISTORY_LENGTH,
    particles := [], initial_energies := [], average_energy := 0 }

/-- A concrete no-particle state in inversion mode whose history holds one
(empty) snapshot. -/
def sampleInverted : SimState :=
  { paused := false, friction_enabled := false, gravity_enabled := false,
    inversion_enabled := true, dt := INITIAL_TIME_STEP,
    history := ⟨MAX_HISTORY_LENGTH, [[]]⟩,
    particles := [], initial_energies := [], average_energy := 0 }

theorem claim_C4_update_behavior_witness :
    (update (fun _ ps => ps) sampleForward
      = { sampleForward with
            history := sampleForward.history.push (save_state sampleForward.particles),
            particles := (fun (_ : ℚ) (ps : List Particle) => ps)
              sampleForward.dt sampleForward.particles })
    ∧ sampleInverted.history.entries.getLast? = some ([] : List BodyState)
    ∧ (update (fun _ ps => ps) sampleInverted
        = { sampleInverted with
              history := ⟨sampleInverted.history.capacity,
                          sampleInverted.history.entries.dropLast⟩,
              particles := load_state sampleInverted.particles [] })
    ∧ update (fun _ _ => []) sampleInverted = update (fun _ ps => ps) sampleInverted
    ∧ save_state (update (fun _ ps => ps) sampleInverted).particles = [] := by
  have hF := (claim_C4_update_behavior (fun _ ps => ps) sampleForward rfl).1 rfl
  obtain ⟨snap, h1, h2, h3, h4⟩ :=
    (claim_C4_update_behavior (fun _ ps => ps) sampleInverted rfl).2.2 rfl
      (by simp [sampleInverted])
  have hs : snap = [] := by
    have : some ([] : List BodyState) = some snap := by
      simpa [sampleInverted] using h1.symm
    exact (Option.some.inj this).symm
  subst hs
  exact ⟨hF, h1, h2, h3 _, h4 rfl⟩

end Simpy

namespace Simpy

/-! ### Claim C2 -/

/-- The `K_g` handler: flip the gravity flag (the matching
`space.gravity` assignment lives in the external physics space). -/
def toggle_gravity (s : SimState) : SimState :=
  { s with gravity_enabled := !s.gravity_enabled }

/-- One concrete instance of the external `space.step`: the symplectic-Euler
velocity/position update pymunk applies to an unobstructed dynamic body
when the space's gravity is `(0, GRAVITY_ACCELERATION)`. -/
def gravityStep (dt : ℚ) (ps : List Particle) : List Particle :=
  ps.map (fun p =>
    { p with body :=
        { p.body with
            velocity := (p.body.velocity.1,
                         p.body.velocity.2 + GRAVITY_ACCELERATION * dt)
            position := (p.body.position.1 + p.body.velocity.1 * dt,
                         p.body.position.2
                           + (p.body.velocity.2 + GRAVITY_ACCELERATION * dt) * dt) } })

/-- Claim C2 is false on the code: start with one particle at rest
(creation-time kinetic energy 0), advance one frame under gravity (its
kinetic energy is now positive), then add a second particle at rest.
The code sets `average_energy` from the stored `initial_energies`
(mean 0), while the mean of the live particles' current kinetic energies
at the moment of the change is positive. -/
theorem claim_C2_counterexample :
    (add_particle_event 3 sampleDraw
        (update gravityStep (toggle_gravity (mkSimState 3 [sampleDraw])))).average_energy
      ≠ ((add_particle_event 3 sampleDraw
            (update gravityStep (toggle_gravity (mkSimState 3 [sampleDraw])))).particles.map
          (fun p => calculate_kinetic_energy p.body)).sum
        / ((add_particle_event 3 sampleDraw
            (update gravityStep (toggle_gravity (mkSimState 3 [sampleDraw])))).particles.length
              : ℚ) := by
  norm_num [add_particle_event, update, toggle_gravity, mkSimState, sampleDraw,
    gravityStep, mkParticle, calculate_kinetic_energy, moment_for_circle,
    save_state, bodyStateOf, History.push, History.empty, DEFAULT_FRICTION,
    GRAVITY_ACCELERATION, INITIAL_TIME_STEP, MAX_HISTORY_LENGTH]

end Simpy

namespace Simpy

/-- Claim C2 (amended): whenever the particle set changes, `average_energy`
is recomputed as the arithmetic mean of the stored creation-time kinetic
energies (`initial_energies`) of the live particles — not of their current
kinetic energies. On add, the new particle's creation-time energy is
appended and the mean of the stored list is taken; on remove (while
particles and stored entries remain) the mean of the remaining stored list
is taken; when removal empties the stored list, `average_energy` retains
its old value; at startup the stored energies are computed at creation, so
there the two notions coincide. -/
theorem claim_C2_average_from_initial_energies
    (pi : ℚ) (d : NewParticleData) (s : SimState) (draws : List NewParticleData) :
    ((add_particle_event pi d s).initial_energies
        = s.initial_energies
          ++ [calculate_kinetic_energy
                (mkParticle pi
                  (if s.friction_enabled then DEFAULT_FRICTION else 0) d).body]
      ∧ (add_particle_event pi d s).average_energy
          = (add_particle_event pi d s).initial_energies.sum
              / ((add_particle_event pi d s).initial_energies.length : ℚ))
    ∧ (s.particles ≠ [] → s.initial_energies.dropLast ≠ [] →
        (remove_particle_event s).initial_energies = s.initial_energies.dropLast
        ∧ (remove_particle_event s).average_energy
            = (remove_particle_event s).initial_energies.sum
                / ((remove_particle_event s).initial_energies.length : ℚ))
    ∧ (s.particles ≠ [] → s.initial_energies.dropLast = [] →
        (remove_particle_event s).initial_energies = s.initial_energies.dropLast
        ∧ (remove_particle_event s).average_energy = s.average_energy)
    ∧ (draws ≠ [] →
        (mkSimState pi draws).average_energy
          = ((mkSimState pi draws).particles.map
              (fun p => calculate_kinetic_energy p.body)).sum
            / ((mkSimState pi draws).particles.length : ℚ)) := by
  refine ⟨⟨rfl, rfl⟩, ?_, ?_, ?_⟩
  · intro hps hie
    have hne : s.initial_energies ≠ [] := by
      intro h
      rw [h] at hie
      exact hie rfl
    constructor
    · simp only [remove_particle_event, if_neg hps, if_neg hne]
    · simp only [remove_particle_event, if_neg hps, if_neg hne, if_neg hie]
  · intro hps hdrop
    by_cases h : s.initial_energies = []
    · constructor
      · simp [remove_particle_event, if_neg hps, h]
      · simp [remove_particle_event, if_neg hps, h]
    · constructor
      · simp [remove_particle_event, if_neg hps, if_neg h]
      · simp [remove_particle_event, if_neg hps, if_neg h, hdrop]
  · intro hdraws
    have hne' : (draws.map (mkParticle pi 0)).map
        (fun p => calculate_kinetic_energy p.body) ≠ [] := by
      simp [hdraws]
    simp only [mkSimState]
    rw [if_neg hne']
    simp

theorem claim_C2_average_from_initial_energies_witness :
    ((mkSimState 3 [sampleDraw, sampleDraw]).particles ≠ []
      ∧ (mkSimState 3 [sampleDraw, sampleDraw]).initial_energies.dropLast ≠ []
      ∧ ([sampleDraw] : List NewParticleData) ≠ [])
    ∧ ((remove_particle_event (mkSimState 3 [sampleDraw, sampleDraw])).initial_energies
          = (mkSimState 3 [sampleDraw, sampleDraw]).initial_energies.dropLast
        ∧ (remove_particle_event (mkSimState 3 [sampleDraw, sampleDraw])).average_energy
            = (remove_particle_event (mkSimState 3 [sampleDraw, sampleDraw])).initial_energies.sum
                / ((remove_particle_event
                      (mkSimState 3 [sampleDraw, sampleDraw])).initial_energies.length : ℚ))
    ∧ ((mkSimState 3 [sampleDraw]).particles ≠ []
        ∧ (mkSimState 3 [sampleDraw]).initial_energies.dropLast = []
        ∧ (remove_particle_event (mkSimState 3 [sampleDraw])).initial_energies
            = (mkSimState 3 [sampleDraw]).initial_energies.dropLast
        ∧ (remove_particle_event (mkSimState 3 [sampleDraw])).average_energy
            = (mkSimState 3 [sampleDraw]).average_energy)
    ∧ ((mkSimState 3 [sampleDraw]).average_energy
        = ((mkSimState 3 [sampleDraw]).particles.map
            (fun p => calculate_kinetic_energy p.body)).sum
          / ((mkSimState 3 [sampleDraw]).particles.length : ℚ)) := by
  have hps : (mkSimState 3 [sampleDraw, sampleDraw]).particles ≠ [] := by
    simp [mkSimState]
  have hie : (mkSimState 3 [sampleDraw, sampleDraw]).initial_energies.dropLast ≠ [] := by
    simp [mkSimState]
  have hps1 : (mkSimState 3 [sampleDraw]).particles ≠ [] := by
    simp [mkSimState]
  have hdrop1 : (mkSimState 3 [sampleDraw]).initial_energies.dropLast = [] := by
    simp [mkSimState]
  have h := claim_C2_average_from_initial_energies 3 sampleDraw
    (mkSimState 3 [sampleDraw, sampleDraw]) [sampleDraw]
  have h1 := claim_C2_average_from_initial_energies 3 sampleDraw
    (mkSimState 3 [sampleDraw]) [sampleDraw]
  exact ⟨⟨hps, hie, by simp⟩, h.2.1 hps hie,
    ⟨hps1, hdrop1, h1.2.2.1 hps1 hdrop1⟩, h.2.2.2 (by simp)⟩

end Simpy
